import Mathlib

/-!
Verification of the splat-boston canvas server core against its
natural-language specification.  The Go source is shallowly embedded:
byte buffers become `List Nat` (each element one byte value), Go `int`
offsets become `Int` (or `Nat` where the surrounding code guarantees
non-negativity), `uint8` colors become `Nat`, wall-clock times become
`Rat` seconds, and the Redis-backed chunk store becomes an explicit
`Store` record threaded through `PaintTile`.  External collaborators
that are pure I/O or floating-point transcendental math (the Turnstile
verifier, the haversine distance, the Mercator projection) are
parameters of the embedded functions; everything else is translated
from the source.
-/

namespace Splat

/-! ## Cell codec (internal/bits/nibble.go) -/

/-- Go `SetNibble(data []byte, offset int, color uint8) uint8`, returning
`(previous color, updated buffer)`.  `color << 4` is Go `uint8`
arithmetic, hence the `% 256`.  The `byteIdx` product is written in
unbounded arithmetic, so this embedding is faithful for every negative
offset (Go returns before multiplying) and for `0 ≤ offset < 2^61`,
where Go's int64 `offset * 4` does not overflow; theorems about
out-of-range offsets are stated on that wrap-free domain, because for
`offset ≥ 2^61` the wrapped Go product can address an in-range byte or
panic on a negative index. -/
def SetNibble (data : List Nat) (offset : Int) (color : Nat) : Nat × List Nat :=
  if offset < 0 then (0, data)
  else
    let o := offset.toNat
    let byteIdx := (o * 4) / 8
    let nibbleIsHigh := o % 2 == 0
    if byteIdx ≥ data.length then (0, data)
    else
      let b := data.getD byteIdx 0
      if nibbleIsHigh then
        ((b &&& 0xF0) >>> 4, data.set byteIdx ((b &&& 0x0F) ||| ((color <<< 4) % 256)))
      else
        (b &&& 0x0F, data.set byteIdx ((b &&& 0xF0) ||| color))

/-- Go `GetNibble(data []byte, offset int) uint8`.  As for `SetNibble`,
the `byteIdx` arithmetic is unbounded and matches Go exactly for
negative offsets and for `0 ≤ offset < 2^61`. -/
def GetNibble (data : List Nat) (offset : Int) : Nat :=
  if offset < 0 then 0
  else
    let o := offset.toNat
    let byteIdx := (o * 4) / 8
    let nibbleIsHigh := o % 2 == 0
    if byteIdx ≥ data.length then 0
    else
      let b := data.getD byteIdx 0
      if nibbleIsHigh then (b &&& 0xF0) >>> 4
      else b &&& 0x0F

/-! ## Grid projection (internal/geo, tile coordinate part)

Go `x >> 8` on `int64` is an arithmetic right shift, i.e. floor
division by 256, which is `Int` division (Euclidean, positive divisor)
in Lean.  Go `x & 255` on two's-complement `int64` is the non-negative
residue `x % 256`. -/

/-- Go `ChunkOf(x, y int64) (cx, cy int64)`: `(x >> 8, y >> 8)`. -/
def ChunkOf (x y : Int) : Int × Int := (x / 256, y / 256)

/-- Go `OffsetOf(x, y int64) int`: `((y & 255) << 8) | (x & 255)`. -/
def OffsetOf (x y : Int) : Nat := (((y % 256).toNat <<< 8) ||| (x % 256).toNat)

/-! ## Chunk store (internal/redis/paint.go)

The Lua `paintScript` runs atomically inside Redis; we embed it as a
pure function on the chunk's byte string plus the `INCR` on the
per-chunk sequence key.  Redis `SETRANGE` zero-pads when writing past
the end of the value; `GETRANGE i i` returns the empty string when `i`
is past the end. -/

/-- Redis `SETRANGE key i (one byte b)` on a value `s`: writes `b` at
index `i`, zero-padding if `i` is past the current end. -/
def setRangeByte (s : List Nat) (i b : Nat) : List Nat :=
  if i < s.length then s.set i b
  else (s ++ List.replicate (i + 1 - s.length) 0).set i b

/-- The body of `paintScript` acting on one chunk's byte string:
returns `(prev color, updated bytes)`.  The `% 4294967296` reflects the
32-bit LuaJIT BitOp arithmetic used for `bit.lshift`. -/
def luaPaint (bits : List Nat) (o color : Nat) : Nat × List Nat :=
  let byteIdx := o * 4 / 8
  let cur : Option Nat := if byteIdx < bits.length then some (bits.getD byteIdx 0) else none
  let init : List Nat × Nat :=
    match cur with
    | none => (setRangeByte bits 32767 0, 0)
    | some b => (bits, b)
  let b := init.2
  let nibbleIsHigh := o % 2 == 0
  let r : Nat × Nat :=
    if nibbleIsHigh then
      ((b &&& 0xF0) >>> 4, (b &&& 0x0F) ||| ((color <<< 4) % 4294967296))
    else
      (b &&& 0x0F, (b &&& 0xF0) ||| color)
  (r.1, setRangeByte init.1 byteIdx r.2)

/-- The per-process view of the Redis keys `chunk:{cx}:{cy}:bits` and
`chunk:{cx}:{cy}:seq` (the `fmt.Sprintf` key format is injective in
`(cx, cy)`, so chunks are keyed directly by the pair). -/
structure Store where
  bits : Int × Int → List Nat
  seq : Int × Int → Nat

/-- A fresh Redis database: every `bits` value is the empty string and
every `seq` counter is absent (reads as 0). -/
def Store.empty : Store := ⟨fun _ => [], fun _ => 0⟩

/-- Go `Client.PaintTile(cx, cy int64, offset int, color uint8)`:
runs `paintScript` and returns `((seq, ts, prev), new store)`.
`now` is the `time.Now().Unix()` argument. -/
def PaintTile (s : Store) (cx cy : Int) (offset color : Nat) (now : Int) :
    (Nat × Int × Nat) × Store :=
  let r := luaPaint (s.bits (cx, cy)) offset color
  let newSeq := s.seq (cx, cy) + 1
  ((newSeq, now, r.1),
    { bits := fun k => if k = (cx, cy) then r.2 else s.bits k,
      seq := fun k => if k = (cx, cy) then newSeq else s.seq k })

/-- One paint operation submitted to the store. -/
structure PaintOp where
  cx : Int
  cy : Int
  o : Nat
  color : Nat
  now : Int

/-- Run a list of paints through the store, recording for every paint
the chunk it addressed and the sequence number it returned. -/
def runPaints (s : Store) : List PaintOp → List ((Int × Int) × Nat)
  | [] => []
  | op :: rest =>
    let r := PaintTile s op.cx op.cy op.o op.color op.now
    ((op.cx, op.cy), r.1.1) :: runPaints r.2 rest

/-- The sequence numbers returned by the paints addressed to chunk `k`,
in submission order. -/
def seqsFor (k : Int × Int) (tr : List ((Int × Int) × Nat)) : List Nat :=
  (tr.filter fun e => decide (e.1 = k)).map (fun e => e.2)

/-! ## Subscription hub (internal/ws, hub part) -/

/-- Go `ws.Delta`: one paint update message. -/
structure Delta where
  seq : Nat
  o : Nat
  color : Nat
  ts : Int
deriving DecidableEq

/-- One `ws.Conn` as the hub sees it: its buffered `send` channel
(`cap` is the channel capacity, 256 in `RegisterConn`), the queued
deltas, and whether the channel has been closed. -/
structure Subscriber where
  id : Nat
  send : List Delta
  cap : Nat
  closed : Bool
deriving DecidableEq

/-- Go `Room.broadcast`: for each subscriber, a non-blocking send; on a
full outbox the channel is closed and the subscriber is deleted from
the room.  Returns `(remaining subscribers, torn-down subscribers)`. -/
def Room.broadcast (subs : List Subscriber) (d : Delta) : List Subscriber × List Subscriber :=
  match subs with
  | [] => ([], [])
  | sub :: rest =>
    let r := Room.broadcast rest d
    if sub.send.length < sub.cap then
      ({ sub with send := sub.send ++ [d] } :: r.1, r.2)
    else
      (r.1, { sub with closed := true } :: r.2)

/-- Go `ws.Hub`: rooms keyed by the `fmt.Sprintf("%d:%d", cx, cy)` key,
which is injective in `(cx, cy)`, so rooms are keyed by the pair. -/
structure Hub where
  rooms : Int × Int → Option (List Subscriber)

/-- Go `Hub.Publish(cx, cy int64, delta Delta)`: look up the room; a
missing room is a no-op; otherwise broadcast into it. -/
def Hub.Publish (h : Hub) (cx cy : Int) (d : Delta) : Hub :=
  match h.rooms (cx, cy) with
  | none => h
  | some subs =>
    ⟨fun k => if k = (cx, cy) then some (Room.broadcast subs d).1 else h.rooms k⟩

/-! ## Rate limiting (internal/rate/limiter.go) -/

/-- Go `rate.Limiter`: per-IP time of the last `SetCooldown`. -/
structure Limiter where
  cooldowns : String → Option Rat

/-- Go `rate.NewLimiter()`. -/
def NewLimiter : Limiter := ⟨fun _ => none⟩

/-- Go `Limiter.CheckCooldown(ip, d)`: true iff the IP is still in
cooldown; an expired entry is deleted.  `now` is `time.Now()`. -/
def Limiter.CheckCooldown (l : Limiter) (ip : String) (cooldownDuration : Rat) (now : Rat) :
    Bool × Limiter :=
  match l.cooldowns ip with
  | none => (false, l)
  | some lastPaint =>
    if lastPaint + cooldownDuration < now then
      (false, ⟨fun k => if k = ip then none else l.cooldowns k⟩)
    else
      (true, l)

/-- Go `Limiter.SetCooldown(ip)`. -/
def Limiter.SetCooldown (l : Limiter) (ip : String) (now : Rat) : Limiter :=
  ⟨fun k => if k = ip then some now else l.cooldowns k⟩

/-- Go `rate.Position`. -/
structure Position where
  lat : Rat
  lon : Rat
  time : Rat
deriving DecidableEq

/-- Go `rate.SpeedLimiter`. -/
structure SpeedLimiter where
  lastPositions : String → Option Position
  maxSpeedMs : Rat

/-- Go `rate.NewSpeedLimiter(maxSpeedKmh)`: converts km/h to m/s. -/
def NewSpeedLimiter (maxSpeedKmh : Rat) : SpeedLimiter :=
  ⟨fun _ => none, maxSpeedKmh * 1000 / 3600⟩

/-- Go `SpeedLimiter.CheckSpeed(ip, lat, lon)`.  `hav` stands for the
transcendental `haversineDistance` (pure math, a parameter of the
embedding); `now` is `time.Now()`.  Returns `(within limits, updated
limiter)`. -/
def SpeedLimiter.CheckSpeed (hav : Rat → Rat → Rat → Rat → Rat) (s : SpeedLimiter)
    (ip : String) (lat lon : Rat) (now : Rat) : Bool × SpeedLimiter :=
  match s.lastPositions ip with
  | none =>
    (true, { s with lastPositions := fun k =>
      if k = ip then some ⟨lat, lon, now⟩ else s.lastPositions k })
  | some lastPos =>
    let distance := hav lastPos.lat lastPos.lon lat lon
    let timeDiff := now - lastPos.time
    if timeDiff ≤ 0 then (true, s)
    else
      let speed := distance / timeDiff
      (decide (speed ≤ s.maxSpeedMs),
        { s with lastPositions := fun k =>
          if k = ip then some ⟨lat, lon, now⟩ else s.lastPositions k })

/-! ## Geofence mask (internal/geo/mask.go) -/

/-- Go `geo.Bounds`. -/
structure Bounds where
  minX : Int
  minY : Int
  maxX : Int
  maxY : Int

/-- Go `geo.Mask`. -/
structure Mask where
  data : List Nat
  bounds : Bounds
  tileSize : Rat

/-- Go `Mask.IsTileAllowed(x, y int64) bool`. -/
def Mask.IsTileAllowed (m : Mask) (x y : Int) : Bool :=
  if x < m.bounds.minX ∨ x > m.bounds.maxX ∨ y < m.bounds.minY ∨ y > m.bounds.maxY then
    false
  else
    let localX := x - m.bounds.minX
    let localY := y - m.bounds.minY
    let width := m.bounds.maxX - m.bounds.minX + 1
    let bitIndex := (localY * width + localX).toNat
    let byteIndex := bitIndex / 8
    let bitOffset := bitIndex % 8
    if byteIndex ≥ m.data.length then false
    else decide ((m.data.getD byteIndex 0 &&& (1 <<< (7 - bitOffset))) ≠ 0)

/-! ## HTTP handler (internal/api/handlers.go) -/

/-- Go `api.Config`. -/
structure Config where
  enableTurnstile : Bool
  turnstileSecret : String
  geofenceRadiusM : Rat
  speedMaxKmh : Rat
  paintCooldownMs : Int
  wsWriteBuffer : Int
  wsPingIntervalS : Int

/-- The configuration `cmd/server/main.go` builds from the environment
defaults: turnstile off, radius 300 m, speed 150 km/h, cooldown
5000 ms, 1 MiB write buffer, 20 s ping interval. -/
def defaultConfig : Config := ⟨false, "", 300, 150, 5000, 1048576, 20⟩

/-- Go `api.PaintRequest` (the decoded JSON body).  `o` is a Go `int`;
the handler paths exercised here only see non-negative values, so it is
embedded as `Nat`. -/
structure PaintRequest where
  lat : Rat
  lon : Rat
  cx : Int
  cy : Int
  o : Nat
  color : Nat
  turnstileToken : String

/-- The three fields of `http.Request` that `getIP` consults
(`Header.Get` returns the empty string for a missing header). -/
structure HttpRequest where
  cfConnectingIP : String
  xForwardedFor : String
  remoteAddr : String

/-- Go `getIP(r *http.Request) string`. -/
def getIP (r : HttpRequest) : String :=
  if r.cfConnectingIP ≠ "" then r.cfConnectingIP
  else if r.xForwardedFor ≠ "" then r.xForwardedFor
  else r.remoteAddr

/-- The possible outcomes of `Handler.PostPaint` (the `http.Error`
calls and the 200 response). -/
inductive PaintOutcome where
  | ok (seq : Nat) (ts : Int)
  | unauthorizedTurnstile
  | forbiddenGeofence
  | forbiddenSpeed
  | forbiddenMask
  | badColor
deriving DecidableEq

/-- The HTTP status code each outcome is surfaced with. -/
def statusOf : PaintOutcome → Nat
  | .ok _ _ => 200
  | .unauthorizedTurnstile => 401
  | .forbiddenGeofence => 403
  | .forbiddenSpeed => 403
  | .forbiddenMask => 403
  | .badColor => 400

/-- The mutable state owned by one `api.Handler` process: the Redis
store, the (never consulted) cooldown limiter, the speed limiter, and
the trace of `hub.Publish` calls it has issued. -/
structure HandlerState where
  store : Store
  cooldownLimiter : Limiter
  speedLimiter : SpeedLimiter
  published : List ((Int × Int) × Delta)

/-- Go `api.NewHandler`: fresh limiters, fresh store, nothing published. -/
def NewHandlerState (cfg : Config) : HandlerState :=
  ⟨Store.empty, NewLimiter, NewSpeedLimiter cfg.speedMaxKmh, []⟩

/-- The `h.mask != nil { ... !IsTileAllowed ... }` step of `PostPaint`.
`latLonToTileXY` stands for the transcendental Mercator projection
`geo.LatLonToTileXY` (a parameter of the embedding). -/
def maskRejects (mask : Option Mask) (latLonToTileXY : Rat → Rat → Int × Int)
    (lat lon : Rat) : Bool :=
  match mask with
  | none => false
  | some m =>
    let p := latLonToTileXY lat lon
    ! m.IsTileAllowed p.1 p.2

/-- Go `Handler.PostPaint` after JSON decoding, in source order:
Turnstile (if enabled) → latitude/longitude bounding box → speed
clamp → mask (if loaded) → color range → `PaintTile` → `hub.Publish`.
The cooldown check and `SetCooldown` are commented out in the source
("Cooldown disabled for development") and therefore absent here.
`verify` stands for the external Turnstile verifier (true iff no error
and `resp.Success`); `now` is `time.Now()` for the speed limiter and
`nowTs` the Unix seconds passed to the paint script.  The published
delta carries `uint16(req.O)`, hence `req.o % 65536`. -/
def PostPaint (cfg : Config) (verify : String → String → Bool)
    (hav : Rat → Rat → Rat → Rat → Rat) (latLonToTileXY : Rat → Rat → Int × Int)
    (mask : Option Mask) (st : HandlerState) (r : HttpRequest) (req : PaintRequest)
    (now : Rat) (nowTs : Int) : PaintOutcome × HandlerState :=
  if cfg.enableTurnstile ∧ req.turnstileToken = "" then (.unauthorizedTurnstile, st)
  else if cfg.enableTurnstile ∧ ¬ verify req.turnstileToken (getIP r) then
    (.unauthorizedTurnstile, st)
  else if req.lat < 42 ∨ req.lat > 43 ∨ req.lon < -72 ∨ req.lon > -70 then
    (.forbiddenGeofence, st)
  else
    let ip := getIP r
    let sres := SpeedLimiter.CheckSpeed hav st.speedLimiter ip req.lat req.lon now
    let st1 : HandlerState := { st with speedLimiter := sres.2 }
    if ¬ sres.1 then (.forbiddenSpeed, st1)
    else if maskRejects mask latLonToTileXY req.lat req.lon then (.forbiddenMask, st1)
    else if req.color > 15 then (.badColor, st1)
    else
      let pres := PaintTile st1.store req.cx req.cy req.o req.color nowTs
      let seq := pres.1.1
      let ts := pres.1.2.1
      let delta : Delta := ⟨seq, req.o % 65536, req.color, ts⟩
      (.ok seq ts,
        { st1 with store := pres.2,
                   published := st1.published ++ [((req.cx, req.cy), delta)] })

/-! ## Helper lemmas -/

set_option maxRecDepth 40000

theorem lor_shiftLeft_eq_add : ∀ (n a b : Nat), b < 2 ^ n → ((a <<< n) ||| b) = 2 ^ n * a + b := by
  intro n
  induction n with
  | zero =>
    intro a b hb
    interval_cases b
    simp [Nat.shiftLeft_zero]
  | succ n ih =>
    intro a b hb
    obtain ⟨c, m, rfl⟩ : ∃ c m, b = Nat.bit c m :=
      ⟨b.testBit 0, b >>> 1, (Nat.bit_testBit_zero_shiftRight_one b).symm⟩
    have hsh : a <<< (n + 1) = Nat.bit false (a <<< n) := by
      rw [Nat.bit_val, Nat.shiftLeft_eq, Nat.shiftLeft_eq, pow_succ]
      simp
      ring
    have hm : m < 2 ^ n := by
      rw [Nat.bit_val] at hb
      rw [pow_succ] at hb
      rcases c <;> simp at hb <;> omega
    rw [hsh, Nat.lor_bit, ih a m hm, Nat.bit_val, Nat.bit_val, Bool.false_or, pow_succ]
    ring

theorem nib_high_set_get : ∀ b < 256, ∀ c < 16,
    ((((b &&& 15) ||| ((c <<< 4) % 256)) &&& 240) >>> 4) = c := by decide

theorem nib_high_set_low_pres : ∀ b < 256, ∀ c < 16,
    (((b &&& 15) ||| ((c <<< 4) % 256)) &&& 15) = b &&& 15 := by decide

theorem nib_low_set_get : ∀ b < 256, ∀ c < 16,
    (((b &&& 240) ||| c) &&& 15) = c := by decide

theorem nib_low_set_high_pres : ∀ b < 256, ∀ c < 16,
    ((((b &&& 240) ||| c) &&& 240) >>> 4) = (b &&& 240) >>> 4 := by decide

theorem nib_high_eq_div : ∀ b < 256, (b &&& 240) >>> 4 = b / 16 := by decide

theorem nib_low_eq_mod : ∀ b < 256, b &&& 15 = b % 16 := by decide

theorem getD_set_self (l : List Nat) (i a : Nat) (h : i < l.length) :
    (l.set i a).getD i 0 = a := by
  simp [List.getD, List.getElem?_set_self, h]

theorem getD_set_ne (l : List Nat) (i j a : Nat) (h : i ≠ j) :
    (l.set i a).getD j 0 = l.getD j 0 := by
  simp [List.getD, List.getElem?_set_ne h]

theorem GetNibble_even (data : List Nat) (o : Nat) (h : o / 2 < data.length)
    (hp : o % 2 = 0) : GetNibble data o = (data.getD (o / 2) 0 &&& 240) >>> 4 := by
  unfold GetNibble
  have h0 : ¬ ((o : Int) < 0) := by omega
  have h1 : ((o : Int)).toNat = o := Int.toNat_natCast o
  have h2 : o * 4 / 8 = o / 2 := by omega
  have h3 : ¬ (o / 2 ≥ data.length) := by omega
  simp only [h0, if_false, h1, h2, h3, hp]
  rfl

theorem GetNibble_odd (data : List Nat) (o : Nat) (h : o / 2 < data.length)
    (hp : o % 2 = 1) : GetNibble data o = data.getD (o / 2) 0 &&& 15 := by
  unfold GetNibble
  have h0 : ¬ ((o : Int) < 0) := by omega
  have h1 : ((o : Int)).toNat = o := Int.toNat_natCast o
  have h2 : o * 4 / 8 = o / 2 := by omega
  have h3 : ¬ (o / 2 ≥ data.length) := by omega
  simp only [h0, if_false, h1, h2, h3, hp]
  rfl

theorem SetNibble_even (data : List Nat) (o c : Nat) (h : o / 2 < data.length)
    (hp : o % 2 = 0) : SetNibble data o c =
      ((data.getD (o / 2) 0 &&& 240) >>> 4,
        data.set (o / 2) ((data.getD (o / 2) 0 &&& 15) ||| ((c <<< 4) % 256))) := by
  unfold SetNibble
  have h0 : ¬ ((o : Int) < 0) := by omega
  have h1 : ((o : Int)).toNat = o := Int.toNat_natCast o
  have h2 : o * 4 / 8 = o / 2 := by omega
  have h3 : ¬ (o / 2 ≥ data.length) := by omega
  simp only [h0, if_false, h1, h2, h3, hp]
  rfl

theorem SetNibble_odd (data : List Nat) (o c : Nat) (h : o / 2 < data.length)
    (hp : o % 2 = 1) : SetNibble data o c =
      (data.getD (o / 2) 0 &&& 15,
        data.set (o / 2) ((data.getD (o / 2) 0 &&& 240) ||| c)) := by
  unfold SetNibble
  have h0 : ¬ ((o : Int) < 0) := by omega
  have h1 : ((o : Int)).toNat = o := Int.toNat_natCast o
  have h2 : o * 4 / 8 = o / 2 := by omega
  have h3 : ¬ (o / 2 ≥ data.length) := by omega
  simp only [h0, if_false, h1, h2, h3, hp]
  rfl

/-! ## C2: codec set/get round trip, frame, and byte layout -/

/-- C2: for every 32,768-byte buffer, offset `o` in 0..65535 and color
`c` in 0..15: `set` returns the previously stored color, a `get` after
`set` returns `c`, every other cell is unchanged, the buffer size stays
32,768, the cell is read from byte `o/2` (high nibble when `o` is even,
low nibble when odd), and `set` writes no byte other than `o/2`. -/
theorem C2_codec_roundtrip (data : List Nat) (o c : Nat)
    (hlen : data.length = 32768) (hbytes : ∀ x ∈ data, x < 256)
    (ho : o < 65536) (hc : c < 16) :
    (SetNibble data o c).1 = GetNibble data o ∧
    GetNibble (SetNibble data o c).2 o = c ∧
    (∀ o' : Nat, o' < 65536 → o' ≠ o →
      GetNibble (SetNibble data o c).2 o' = GetNibble data o') ∧
    (SetNibble data o c).2.length = data.length ∧
    (GetNibble data o =
      if o % 2 = 0 then data.getD (o / 2) 0 / 16 else data.getD (o / 2) 0 % 16) ∧
    (∀ i : Nat, i ≠ o / 2 → (SetNibble data o c).2.getD i 0 = data.getD i 0) := by
  have hbi : o / 2 < data.length := by omega
  have hb : data.getD (o / 2) 0 < 256 := by
    refine hbytes _ ?_
    rw [List.getD_eq_getElem data 0 hbi]
    exact List.getElem_mem hbi
  rcases Nat.mod_two_eq_zero_or_one o with hpar | hpar
  · rw [SetNibble_even data o c hbi hpar, GetNibble_even data o hbi hpar]
    have hlen' : ∀ v : Nat, (data.set (o / 2) v).length = data.length := by
      intro v
      exact List.length_set data ..
    refine ⟨rfl, ?_, ?_, hlen' _, ?_, ?_⟩
    · rw [GetNibble_even _ o (by rw [hlen']; omega) hpar,
        getD_set_self data (o / 2) _ hbi]
      exact nib_high_set_get _ hb _ hc
    · intro o' ho' hne
      by_cases hsame : o' / 2 = o / 2
      · have hpar' : o' % 2 = 1 := by omega
        rw [GetNibble_odd _ o' (by rw [hlen']; omega) hpar',
          GetNibble_odd data o' (by omega) hpar', hsame,
          getD_set_self data (o / 2) _ hbi]
        exact nib_high_set_low_pres _ hb _ hc
      · rcases Nat.mod_two_eq_zero_or_one o' with hp' | hp'
        · rw [GetNibble_even _ o' (by rw [hlen']; omega) hp',
            GetNibble_even data o' (by omega) hp',
            getD_set_ne data _ _ _ (Ne.symm hsame)]
        · rw [GetNibble_odd _ o' (by rw [hlen']; omega) hp',
            GetNibble_odd data o' (by omega) hp',
            getD_set_ne data _ _ _ (Ne.symm hsame)]
    · rw [if_pos hpar]
      exact nib_high_eq_div _ hb
    · intro i hi
      exact getD_set_ne data _ _ _ (Ne.symm hi)
  · rw [SetNibble_odd data o c hbi hpar, GetNibble_odd data o hbi hpar]
    have hlen' : ∀ v : Nat, (data.set (o / 2) v).length = data.length := by
      intro v
      exact List.length_set data ..
    refine ⟨rfl, ?_, ?_, hlen' _, ?_, ?_⟩
    · rw [GetNibble_odd _ o (by rw [hlen']; omega) hpar,
        getD_set_self data (o / 2) _ hbi]
      exact nib_low_set_get _ hb _ hc
    · intro o' ho' hne
      by_cases hsame : o' / 2 = o / 2
      · have hpar' : o' % 2 = 0 := by omega
        rw [GetNibble_even _ o' (by rw [hlen']; omega) hpar',
          GetNibble_even data o' (by omega) hpar', hsame,
          getD_set_self data (o / 2) _ hbi]
        exact nib_low_set_high_pres _ hb _ hc
      · rcases Nat.mod_two_eq_zero_or_one o' with hp' | hp'
        · rw [GetNibble_even _ o' (by rw [hlen']; omega) hp',
            GetNibble_even data o' (by omega) hp',
            getD_set_ne data _ _ _ (Ne.symm hsame)]
        · rw [GetNibble_odd _ o' (by rw [hlen']; omega) hp',
            GetNibble_odd data o' (by omega) hp',
            getD_set_ne data _ _ _ (Ne.symm hsame)]
    · rw [if_neg (by omega)]
      exact nib_low_eq_mod _ hb
    · intro i hi
      exact getD_set_ne data _ _ _ (Ne.symm hi)

/-- Witness for `C2_codec_roundtrip` on a fresh 32,768-byte chunk at
offset 2 with color 7. -/
theorem C2_codec_roundtrip_witness :
    GetNibble (SetNibble (List.replicate 32768 0) ((2 : Nat) : Int) 7).2 ((2 : Nat) : Int) = 7 ∧
    (SetNibble (List.replicate 32768 0) ((2 : Nat) : Int) 7).1
      = GetNibble (List.replicate 32768 0) ((2 : Nat) : Int) := by
  have h := C2_codec_roundtrip (List.replicate 32768 0) 2 7 (List.length_replicate 32768 0)
    (by intro x hx; rw [List.eq_of_mem_replicate hx]; norm_num) (by norm_num) (by norm_num)
  exact ⟨h.2.1, h.1⟩

/-! ## C8: codec behavior on out-of-range inputs -/

/-- C8 counterexample: the codec does not validate the color.  At the
in-range offset 1 with the out-of-range color 16, `SetNibble` mutates
the buffer (`[0]` becomes `[16]`, spilling a bit into the other
nibble), contradicting the claim that the buffer is left unchanged
whenever `c > 15`. -/
theorem C8_color_unvalidated_cex :
    SetNibble [0] 1 16 = (0, [16]) ∧ ¬ ((SetNibble [0] 1 16).2 = [0]) := by decide

/-- C8 amended: only the offset is validated, and the defensive
guarantee holds below the int64 wrap threshold.  For an offset that is
negative, or at or past the buffer's last cell (cell count is twice
the byte count) while below `2^61` — the range where Go's int64
`offset * 4` does not overflow — `get` returns 0 and `set` returns 0
and leaves the buffer untouched.  Colors are not checked, and for
offsets at or above `2^61` the wrapped Go byte index can land in range
or be negative, so no guarantee is claimed there. -/
theorem C8_offset_out_of_range (data : List Nat) (offset : Int) (c : Nat)
    (h : offset < 0 ∨ (2 * (data.length : Int) ≤ offset ∧ offset < 2 ^ 61)) :
    GetNibble data offset = 0 ∧ SetNibble data offset c = (0, data) := by
  unfold GetNibble SetNibble
  rcases h with h | h
  · simp [h]
  · have h0 : ¬ (offset < 0) := by omega
    have h2 : offset.toNat * 4 / 8 ≥ data.length := by
      have := h.1
      omega
    simp [h0, h2]

/-- Witness for `C8_offset_out_of_range`: a 2-byte buffer holds cells
0..3, so offset 4 is out of range and well below the wrap threshold. -/
theorem C8_offset_out_of_range_witness :
    GetNibble [0, 0] 4 = 0 ∧ SetNibble [0, 0] 4 3 = (0, [0, 0]) := by
  have h := C8_offset_out_of_range [0, 0] 4 3 (Or.inr ⟨by norm_num, by norm_num⟩)
  exact ⟨h.1, h.2⟩

/-! ## C9: chunk/offset projection round trip -/

/-- C9: for every signed tile coordinate pair, the offset lies in
0..65535 and `(x, y)` is recovered from the chunk coordinates and the
offset by `x = cx·256 + o % 256` and `y = cy·256 + o / 256`, including
for negative `x` and `y`. -/
theorem C9_projection_roundtrip (x y : Int) :
    OffsetOf x y < 65536 ∧
    x = (ChunkOf x y).1 * 256 + ((OffsetOf x y % 256 : Nat) : Int) ∧
    y = (ChunkOf x y).2 * 256 + ((OffsetOf x y / 256 : Nat) : Int) := by
  have hxm : 0 ≤ x % 256 := Int.emod_nonneg x (by norm_num)
  have hxm' : x % 256 < 256 := Int.emod_lt_of_pos x (by norm_num)
  have hym : 0 ≤ y % 256 := Int.emod_nonneg y (by norm_num)
  have hym' : y % 256 < 256 := Int.emod_lt_of_pos y (by norm_num)
  have hb : (x % 256).toNat < 256 := by omega
  have ha : (y % 256).toNat < 256 := by omega
  have hoff : OffsetOf x y = 256 * (y % 256).toNat + (x % 256).toNat := by
    unfold OffsetOf
    have := lor_shiftLeft_eq_add 8 (y % 256).toNat (x % 256).toNat (by norm_num at hb ⊢; omega)
    simpa using this
  refine ⟨by omega, ?_, ?_⟩
  · unfold ChunkOf
    simp only
    have h1 : OffsetOf x y % 256 = (x % 256).toNat := by omega
    rw [h1]
    omega
  · unfold ChunkOf
    simp only
    have h2 : OffsetOf x y / 256 = (y % 256).toNat := by omega
    rw [h2]
    omega

/-! ## Chunk store, hub, rate limiter and handler lemmas, C1, C3, C4, C5, C6, C7, C10 -/

/-- One `PaintTile` step: the returned sequence is the chunk's previous
sequence plus one, the stored sequence is updated accordingly, the
returned timestamp is the one passed in, and other chunks are
untouched. -/
theorem PaintTile_seq_step (s : Store) (cx cy : Int) (o color : Nat) (t : Int) :
    (PaintTile s cx cy o color t).1.1 = s.seq (cx, cy) + 1 ∧
    (PaintTile s cx cy o color t).1.2.1 = t ∧
    ((PaintTile s cx cy o color t).2).seq (cx, cy) = s.seq (cx, cy) + 1 ∧
    (∀ k : Int × Int, k ≠ (cx, cy) →
      ((PaintTile s cx cy o color t).2).seq k = s.seq k ∧
      ((PaintTile s cx cy o color t).2).bits k = s.bits k) := by
  refine ⟨rfl, rfl, by simp [PaintTile], ?_⟩
  intro k hk
  constructor <;> simp [PaintTile, hk]

/-- Running a list of paints from store `s`: the sequences returned for
chunk `k` are exactly `s.seq k + 1, s.seq k + 2, ...`, one per paint
addressed to `k`. -/
theorem runPaints_seqsFor (ops : List PaintOp) : ∀ (s : Store) (k : Int × Int),
    seqsFor k (runPaints s ops)
      = List.range' (s.seq k + 1) (ops.countP fun op => decide ((op.cx, op.cy) = k)) := by
  induction ops with
  | nil => intro s k; simp [runPaints, seqsFor]
  | cons op rest ih =>
    intro s k
    by_cases hk : (op.cx, op.cy) = k
    · have hcount : ((op :: rest).countP fun op => decide ((op.cx, op.cy) = k))
          = (rest.countP fun op => decide ((op.cx, op.cy) = k)) + 1 := by
        rw [List.countP_cons]
        simp [hk]
      rw [hcount]
      simp only [runPaints, seqsFor, List.filter_cons]
      rw [if_pos (by simp [hk])]
      simp only [List.map_cons]
      have hrec := ih ((PaintTile s op.cx op.cy op.o op.color op.now).2) k
      unfold seqsFor at hrec
      rw [hrec]
      have hseq : ((PaintTile s op.cx op.cy op.o op.color op.now).2).seq k = s.seq k + 1 := by
        simp [PaintTile, ← hk]
      rw [hseq, List.range'_succ]
      simp [PaintTile, ← hk]
    · have hcount : ((op :: rest).countP fun op => decide ((op.cx, op.cy) = k))
          = (rest.countP fun op => decide ((op.cx, op.cy) = k)) := by
        rw [List.countP_cons]
        simp [hk]
      rw [hcount]
      simp only [runPaints, seqsFor, List.filter_cons]
      rw [if_neg (by simp [hk])]
      have hrec := ih ((PaintTile s op.cx op.cy op.o op.color op.now).2) k
      unfold seqsFor at hrec
      rw [hrec]
      have hseq : ((PaintTile s op.cx op.cy op.o op.color op.now).2).seq k = s.seq k := by
        simp [PaintTile, Ne.symm hk]
      rw [hseq]



/-- C1: every `PaintTile` returns `1 + the chunk's previous sequence`
and stores that value back; chunks other than the painted one keep
their sequence and bytes; every chunk's counter starts at 0 in the
empty store; and over any run of paints from the empty store the
sequences returned for one chunk are `1, 2, ...` (hence pairwise
distinct and independent across chunks). -/
theorem C1_per_chunk_seq (s : Store) (cx cy : Int) (o color : Nat) (t : Int)
    (k : Int × Int) (hk : k ≠ (cx, cy)) (ops : List PaintOp) (k2 : Int × Int) :
    (PaintTile s cx cy o color t).1.1 = s.seq (cx, cy) + 1 ∧
    ((PaintTile s cx cy o color t).2).seq (cx, cy) = s.seq (cx, cy) + 1 ∧
    ((PaintTile s cx cy o color t).2).seq k = s.seq k ∧
    ((PaintTile s cx cy o color t).2).bits k = s.bits k ∧
    Store.empty.seq k2 = 0 ∧
    seqsFor k2 (runPaints Store.empty ops)
      = List.range' 1 (ops.countP fun op => decide ((op.cx, op.cy) = k2)) ∧
    (seqsFor k2 (runPaints Store.empty ops)).Nodup := by
  have hstep := PaintTile_seq_step s cx cy o color t
  have hrun := runPaints_seqsFor ops Store.empty k2
  refine ⟨hstep.1, hstep.2.2.1, (hstep.2.2.2 k hk).1, (hstep.2.2.2 k hk).2, rfl, ?_, ?_⟩
  · simpa using hrun
  · rw [show seqsFor k2 (runPaints Store.empty ops)
        = List.range' 1 (ops.countP fun op => decide ((op.cx, op.cy) = k2)) by simpa using hrun]
    exact List.nodup_range' ..

/-- Witness for `C1_per_chunk_seq`: three concrete paints, two to chunk
(0,0) and one to (1,0). -/
theorem C1_per_chunk_seq_witness :
    ((1 : Int), (1 : Int)) ≠ ((0 : Int), (0 : Int)) ∧
    (PaintTile Store.empty 0 0 0 5 10).1.1 = Store.empty.seq (0, 0) + 1 ∧
    ((PaintTile Store.empty 0 0 0 5 10).2).seq ((1 : Int), (1 : Int))
      = Store.empty.seq ((1 : Int), (1 : Int)) ∧
    seqsFor ((0 : Int), (0 : Int))
        (runPaints Store.empty ([⟨0, 0, 0, 5, 10⟩, ⟨0, 0, 1, 3, 11⟩, ⟨1, 0, 0, 2, 12⟩] : List PaintOp))
      = List.range' 1 (List.countP (fun op => decide ((op.cx, op.cy) = ((0 : Int), (0 : Int))))
          ([⟨0, 0, 0, 5, 10⟩, ⟨0, 0, 1, 3, 11⟩, ⟨1, 0, 0, 2, 12⟩] : List PaintOp)) ∧
    (seqsFor ((0 : Int), (0 : Int))
        (runPaints Store.empty ([⟨0, 0, 0, 5, 10⟩, ⟨0, 0, 1, 3, 11⟩, ⟨1, 0, 0, 2, 12⟩] : List PaintOp))).Nodup := by
  have h := C1_per_chunk_seq Store.empty 0 0 0 5 10 ((1 : Int), (1 : Int)) (by decide)
    ([⟨0, 0, 0, 5, 10⟩, ⟨0, 0, 1, 3, 11⟩, ⟨1, 0, 0, 2, 12⟩] : List PaintOp) ((0 : Int), (0 : Int))
  exact ⟨by decide, h.1, h.2.2.1, h.2.2.2.2.2.1, h.2.2.2.2.2.2⟩



/-- `Room.broadcast` keeps exactly the subscribers with a free outbox
slot (appending the delta to each) and tears down exactly the full
ones (closing their outbox, delta dropped). -/
theorem broadcast_filter (subs : List Subscriber) (d : Delta) :
    (Room.broadcast subs d).1
      = (subs.filter fun s => decide (s.send.length < s.cap)).map
          (fun s => { s with send := s.send ++ [d] }) ∧
    (Room.broadcast subs d).2
      = (subs.filter fun s => ! decide (s.send.length < s.cap)).map
          (fun s => { s with closed := true }) := by
  induction subs with
  | nil => simp [Room.broadcast]
  | cons sub rest ih =>
    by_cases hs : sub.send.length < sub.cap
    · simp [Room.broadcast, hs, List.filter_cons, ih.1, ih.2]
    · simp [Room.broadcast, hs, List.filter_cons, ih.1, ih.2]

/-- C3: broadcasting a delta appends it to every subscriber whose
outbox has room, while every full subscriber is removed from the room
with its outbox closed and the delta dropped; publishing to a chunk
with no room is a no-op; publishing to an existing room replaces it by
its broadcast survivors and leaves other rooms untouched.  (Publish
never blocks: it is embedded as a total function built from the
non-blocking try-append.) -/
theorem C3_publish_backpressure (subs : List Subscriber) (d : Delta) (h h2 : Hub) (cx cy : Int)
    (hnone : h.rooms (cx, cy) = none)
    (subs0 : List Subscriber) (hsome : h2.rooms (cx, cy) = some subs0)
    (k : Int × Int) (hk : k ≠ (cx, cy)) :
    (Room.broadcast subs d).1
      = (subs.filter fun s => decide (s.send.length < s.cap)).map
          (fun s => { s with send := s.send ++ [d] }) ∧
    (Room.broadcast subs d).2
      = (subs.filter fun s => ! decide (s.send.length < s.cap)).map
          (fun s => { s with closed := true }) ∧
    Hub.Publish h cx cy d = h ∧
    (Hub.Publish h2 cx cy d).rooms (cx, cy) = some (Room.broadcast subs0 d).1 ∧
    (Hub.Publish h2 cx cy d).rooms k = h2.rooms k := by
  refine ⟨(broadcast_filter subs d).1, (broadcast_filter subs d).2, ?_, ?_, ?_⟩
  · simp [Hub.Publish, hnone]
  · simp [Hub.Publish, hsome]
  · simp [Hub.Publish, hsome, hk]



/-- Witness for `C3_publish_backpressure`: a room with one free and one
full subscriber, plus an empty hub. -/
theorem C3_publish_backpressure_witness :
    (⟨fun _ => none⟩ : Hub).rooms (0, 0) = none ∧
    (⟨fun k => if k = ((0 : Int), (0 : Int))
        then some ([⟨1, [], 1, false⟩, ⟨2, [⟨1, 0, 5, 10⟩], 1, false⟩] : List Subscriber)
        else none⟩ : Hub).rooms (0, 0)
      = some ([⟨1, [], 1, false⟩, ⟨2, [⟨1, 0, 5, 10⟩], 1, false⟩] : List Subscriber) ∧
    ((1 : Int), (1 : Int)) ≠ ((0 : Int), (0 : Int)) ∧
    (Room.broadcast ([⟨1, [], 1, false⟩, ⟨2, [⟨1, 0, 5, 10⟩], 1, false⟩] : List Subscriber)
        ⟨2, 1, 3, 11⟩).1
      = (([⟨1, [], 1, false⟩, ⟨2, [⟨1, 0, 5, 10⟩], 1, false⟩] : List Subscriber).filter
          fun s => decide (s.send.length < s.cap)).map
            (fun s => { s with send := s.send ++ [⟨2, 1, 3, 11⟩] }) ∧
    (Room.broadcast ([⟨1, [], 1, false⟩, ⟨2, [⟨1, 0, 5, 10⟩], 1, false⟩] : List Subscriber)
        ⟨2, 1, 3, 11⟩).2
      = (([⟨1, [], 1, false⟩, ⟨2, [⟨1, 0, 5, 10⟩], 1, false⟩] : List Subscriber).filter
          fun s => ! decide (s.send.length < s.cap)).map
            (fun s => { s with closed := true }) ∧
    Hub.Publish (⟨fun _ => none⟩ : Hub) 0 0 ⟨2, 1, 3, 11⟩ = ⟨fun _ => none⟩ := by
  have h := C3_publish_backpressure
    ([⟨1, [], 1, false⟩, ⟨2, [⟨1, 0, 5, 10⟩], 1, false⟩] : List Subscriber)
    ⟨2, 1, 3, 11⟩ (⟨fun _ => none⟩ : Hub)
    (⟨fun k => if k = ((0 : Int), (0 : Int))
        then some ([⟨1, [], 1, false⟩, ⟨2, [⟨1, 0, 5, 10⟩], 1, false⟩] : List Subscriber)
        else none⟩ : Hub) 0 0 rfl
    ([⟨1, [], 1, false⟩, ⟨2, [⟨1, 0, 5, 10⟩], 1, false⟩] : List Subscriber) (by rfl)
    ((1 : Int), (1 : Int)) (by decide)
  exact ⟨rfl, by rfl, by decide, h.1, h.2.1, h.2.2.1⟩



/-- `CheckSpeed` on a first sighting: accepts and stores the position. -/
theorem CheckSpeed_none (hav : Rat → Rat → Rat → Rat → Rat) (s : SpeedLimiter)
    (ip : String) (lat lon now : Rat) (h : s.lastPositions ip = none) :
    SpeedLimiter.CheckSpeed hav s ip lat lon now
      = (true, { s with lastPositions := fun k =>
          if k = ip then some ⟨lat, lon, now⟩ else s.lastPositions k }) := by
  unfold SpeedLimiter.CheckSpeed
  rw [h]

/-- `CheckSpeed` when no time has elapsed: accepts without updating. -/
theorem CheckSpeed_stale (hav : Rat → Rat → Rat → Rat → Rat) (s : SpeedLimiter)
    (ip : String) (lat lon now : Rat) (p : Position)
    (h : s.lastPositions ip = some p) (ht : now - p.time ≤ 0) :
    SpeedLimiter.CheckSpeed hav s ip lat lon now = (true, s) := by
  unfold SpeedLimiter.CheckSpeed
  rw [h]
  simp [ht]

/-- `CheckSpeed` with positive elapsed time: compares the implied speed
against the limit and stores the new position regardless of the
verdict. -/
theorem CheckSpeed_fresh (hav : Rat → Rat → Rat → Rat → Rat) (s : SpeedLimiter)
    (ip : String) (lat lon now : Rat) (p : Position)
    (h : s.lastPositions ip = some p) (ht : 0 < now - p.time) :
    SpeedLimiter.CheckSpeed hav s ip lat lon now
      = (decide (hav p.lat p.lon lat lon / (now - p.time) ≤ s.maxSpeedMs),
        { s with lastPositions := fun k =>
          if k = ip then some ⟨lat, lon, now⟩ else s.lastPositions k }) := by
  unfold SpeedLimiter.CheckSpeed
  rw [h]
  simp only []
  rw [if_neg (not_le.mpr ht)]

/-- `CheckSpeed` touches no key other than the one it is called with. -/
theorem CheckSpeed_frame (hav : Rat → Rat → Rat → Rat → Rat) (s : SpeedLimiter)
    (ip : String) (lat lon now : Rat) (k : String) (hk : k ≠ ip) :
    (SpeedLimiter.CheckSpeed hav s ip lat lon now).2.lastPositions k
      = s.lastPositions k := by
  unfold SpeedLimiter.CheckSpeed
  rcases hm : s.lastPositions ip with _ | p
  · simp [hk]
  · by_cases ht : now - p.time ≤ 0
    · simp [ht]
    · simp [ht, hk]



/-- `PostPaint` when every check passes: paints, publishes, and leaves
the cooldown limiter alone. -/
theorem PostPaint_accept (cfg : Config) (verify : String → String → Bool)
    (hav : Rat → Rat → Rat → Rat → Rat) (ll : Rat → Rat → Int × Int)
    (mask : Option Mask) (st : HandlerState) (r : HttpRequest) (req : PaintRequest)
    (now : Rat) (nowTs : Int)
    (h1 : ¬ (cfg.enableTurnstile ∧ req.turnstileToken = ""))
    (h2 : ¬ (cfg.enableTurnstile ∧ ¬ verify req.turnstileToken (getIP r)))
    (h3 : ¬ (req.lat < 42 ∨ req.lat > 43 ∨ req.lon < -72 ∨ req.lon > -70))
    (h4 : (SpeedLimiter.CheckSpeed hav st.speedLimiter (getIP r) req.lat req.lon now).1 = true)
    (h5 : maskRejects mask ll req.lat req.lon = false)
    (h6 : ¬ (req.color > 15)) :
    PostPaint cfg verify hav ll mask st r req now nowTs
      = (.ok (st.store.seq (req.cx, req.cy) + 1) nowTs,
        { store := (PaintTile st.store req.cx req.cy req.o req.color nowTs).2,
          cooldownLimiter := st.cooldownLimiter,
          speedLimiter :=
            (SpeedLimiter.CheckSpeed hav st.speedLimiter (getIP r) req.lat req.lon now).2,
          published := st.published ++ [((req.cx, req.cy),
            ⟨st.store.seq (req.cx, req.cy) + 1, req.o % 65536, req.color, nowTs⟩)] }) := by
  simp [PostPaint, h1, h2, h3, h4, h5, h6, PaintTile]
  tauto

/-- `PostPaint` when the checks up to the color test pass but the color
is out of range: 400, no store mutation, but the speed limiter has
already been updated. -/
theorem PostPaint_badColor (cfg : Config) (verify : String → String → Bool)
    (hav : Rat → Rat → Rat → Rat → Rat) (ll : Rat → Rat → Int × Int)
    (mask : Option Mask) (st : HandlerState) (r : HttpRequest) (req : PaintRequest)
    (now : Rat) (nowTs : Int)
    (h1 : ¬ (cfg.enableTurnstile ∧ req.turnstileToken = ""))
    (h2 : ¬ (cfg.enableTurnstile ∧ ¬ verify req.turnstileToken (getIP r)))
    (h3 : ¬ (req.lat < 42 ∨ req.lat > 43 ∨ req.lon < -72 ∨ req.lon > -70))
    (h4 : (SpeedLimiter.CheckSpeed hav st.speedLimiter (getIP r) req.lat req.lon now).1 = true)
    (h5 : maskRejects mask ll req.lat req.lon = false)
    (h6 : req.color > 15) :
    PostPaint cfg verify hav ll mask st r req now nowTs
      = (.badColor, { st with speedLimiter :=
          (SpeedLimiter.CheckSpeed hav st.speedLimiter (getIP r) req.lat req.lon now).2 }) := by
  simp [PostPaint, h1, h2, h3, h4, h5, h6]
  tauto

/-- `PostPaint` never reads or writes the cooldown limiter (the check
is commented out in the source). -/
theorem PostPaint_cooldown_untouched (cfg : Config) (verify : String → String → Bool)
    (hav : Rat → Rat → Rat → Rat → Rat) (ll : Rat → Rat → Int × Int)
    (mask : Option Mask) (st : HandlerState) (r : HttpRequest) (req : PaintRequest)
    (now : Rat) (nowTs : Int) :
    (PostPaint cfg verify hav ll mask st r req now nowTs).2.cooldownLimiter
      = st.cooldownLimiter := by
  unfold PostPaint
  split_ifs <;> try rfl
  all_goals
    by_cases hs : (SpeedLimiter.CheckSpeed hav st.speedLimiter (getIP r) req.lat req.lon now).1 <;>
      simp [hs]

/-- `PostPaint` ignores the configured geofence radius and cooldown
window entirely. -/
theorem PostPaint_radius_config_irrelevant (cfg : Config) (x : Rat) (y : Int)
    (verify : String → String → Bool)
    (hav : Rat → Rat → Rat → Rat → Rat) (ll : Rat → Rat → Int × Int)
    (mask : Option Mask) (st : HandlerState) (r : HttpRequest) (req : PaintRequest)
    (now : Rat) (nowTs : Int) :
    PostPaint { cfg with geofenceRadiusM := x, paintCooldownMs := y } verify hav ll mask st r req now nowTs
      = PostPaint cfg verify hav ll mask st r req now nowTs := rfl



/-- Length of a Redis `SETRANGE` of one byte. -/
theorem setRangeByte_length (s : List Nat) (i b : Nat) :
    (setRangeByte s i b).length = max s.length (i + 1) := by
  unfold setRangeByte
  split <;> simp [List.length_set, List.length_append, List.length_replicate] <;> omega

/-- Length of the chunk byte string after the paint script runs. -/
theorem luaPaint_length (bits : List Nat) (o color : Nat) :
    (luaPaint bits o color).2.length
      = if o * 4 / 8 < bits.length then max bits.length (o * 4 / 8 + 1)
        else max (max bits.length 32768) (o * 4 / 8 + 1) := by
  unfold luaPaint
  by_cases h : o * 4 / 8 < bits.length
  · simp only [if_pos h, setRangeByte_length]
  · simp only [if_neg h, setRangeByte_length]

/-- C4 (code bug): the handler never validates the offset.  A request
with `o = 70000` (outside 0..65535) and a valid color is accepted with
status 200: the store runs, the chunk's sequence becomes 1, the chunk
byte string is extended to 35,001 bytes (past the fixed 32,768), and a
delta with the offset truncated to `uint16` (4464) is published.  The
claim says such a request is rejected with 400 before any store
operation. -/
theorem C4_offset_not_validated :
    statusOf (PostPaint defaultConfig (fun _ _ => true) (fun _ _ _ _ => 0) (fun _ _ => (0, 0))
        none (NewHandlerState defaultConfig) ⟨"", "", "10.0.0.1:1234"⟩
        ⟨42, -71, 0, 0, 70000, 5, ""⟩ 100 100).1 = 200 ∧
    (PostPaint defaultConfig (fun _ _ => true) (fun _ _ _ _ => 0) (fun _ _ => (0, 0))
        none (NewHandlerState defaultConfig) ⟨"", "", "10.0.0.1:1234"⟩
        ⟨42, -71, 0, 0, 70000, 5, ""⟩ 100 100).1 = .ok 1 100 ∧
    (PostPaint defaultConfig (fun _ _ => true) (fun _ _ _ _ => 0) (fun _ _ => (0, 0))
        none (NewHandlerState defaultConfig) ⟨"", "", "10.0.0.1:1234"⟩
        ⟨42, -71, 0, 0, 70000, 5, ""⟩ 100 100).2.store.seq ((0 : Int), (0 : Int)) = 1 ∧
    ((PostPaint defaultConfig (fun _ _ => true) (fun _ _ _ _ => 0) (fun _ _ => (0, 0))
        none (NewHandlerState defaultConfig) ⟨"", "", "10.0.0.1:1234"⟩
        ⟨42, -71, 0, 0, 70000, 5, ""⟩ 100 100).2.store.bits ((0 : Int), (0 : Int))).length
      = 35001 ∧
    (PostPaint defaultConfig (fun _ _ => true) (fun _ _ _ _ => 0) (fun _ _ => (0, 0))
        none (NewHandlerState defaultConfig) ⟨"", "", "10.0.0.1:1234"⟩
        ⟨42, -71, 0, 0, 70000, 5, ""⟩ 100 100).2.published
      = [(((0 : Int), (0 : Int)), ⟨1, 4464, 5, 100⟩)] := by
  have hacc := PostPaint_accept defaultConfig (fun _ _ => true) (fun _ _ _ _ => 0)
    (fun _ _ => (0, 0)) none (NewHandlerState defaultConfig) ⟨"", "", "10.0.0.1:1234"⟩
    ⟨42, -71, 0, 0, 70000, 5, ""⟩ 100 100
    (by simp [defaultConfig]) (by simp [defaultConfig]) (by norm_num)
    (by rw [CheckSpeed_none _ _ _ _ _ _ rfl]) rfl (by norm_num)
  rw [hacc]
  dsimp only
  refine ⟨rfl, rfl, by simp [PaintTile, NewHandlerState, Store.empty], ?_,
    by simp [NewHandlerState, Store.empty]⟩
  have hlp : ((PaintTile (NewHandlerState defaultConfig).store 0 0 70000 5 100).2.bits
      ((0 : Int), (0 : Int))) = (luaPaint [] 70000 5).2 := by
    simp [PaintTile, NewHandlerState, Store.empty]
  rw [hlp, luaPaint_length]
  norm_num



/-- `PostPaint` when the speed clamp rejects: 403 and the speed limiter
update (already performed) is kept. -/
theorem PostPaint_reject_speed (cfg : Config) (verify : String → String → Bool)
    (hav : Rat → Rat → Rat → Rat → Rat) (ll : Rat → Rat → Int × Int)
    (mask : Option Mask) (st : HandlerState) (r : HttpRequest) (req : PaintRequest)
    (now : Rat) (nowTs : Int)
    (h1 : ¬ (cfg.enableTurnstile ∧ req.turnstileToken = ""))
    (h2 : ¬ (cfg.enableTurnstile ∧ ¬ verify req.turnstileToken (getIP r)))
    (h3 : ¬ (req.lat < 42 ∨ req.lat > 43 ∨ req.lon < -72 ∨ req.lon > -70))
    (h4 : (SpeedLimiter.CheckSpeed hav st.speedLimiter (getIP r) req.lat req.lon now).1 = false) :
    PostPaint cfg verify hav ll mask st r req now nowTs
      = (.forbiddenSpeed, { st with speedLimiter :=
          (SpeedLimiter.CheckSpeed hav st.speedLimiter (getIP r) req.lat req.lon now).2 }) := by
  simp [PostPaint, h1, h2, h3, h4]
  tauto

/-- C5 (code bug): the admission pipeline has no radius check and no
cooldown check, and the mask check runs after the speed clamp.  The
handler's result never depends on the configured geofence radius or
cooldown window; the cooldown limiter is never consulted or updated; a
paint whose tile (cx=1000, cy=1000) is far from the submitted
coordinates is accepted instead of being rejected with
`FORBIDDEN(radius)`; and a request rejectable by both the speed clamp
and the mask yields the speed rejection, showing the mask check does
not precede the speed check as the claimed order requires. -/
theorem C5_no_radius_no_cooldown :
    (∀ (cfg : Config) (x : Rat) (y : Int) (verify : String → String → Bool)
      (hav : Rat → Rat → Rat → Rat → Rat) (ll : Rat → Rat → Int × Int)
      (mask : Option Mask) (st : HandlerState) (r : HttpRequest) (req : PaintRequest)
      (now : Rat) (nowTs : Int),
      PostPaint { cfg with geofenceRadiusM := x, paintCooldownMs := y }
          verify hav ll mask st r req now nowTs
        = PostPaint cfg verify hav ll mask st r req now nowTs) ∧
    (∀ (cfg : Config) (verify : String → String → Bool)
      (hav : Rat → Rat → Rat → Rat → Rat) (ll : Rat → Rat → Int × Int)
      (mask : Option Mask) (st : HandlerState) (r : HttpRequest) (req : PaintRequest)
      (now : Rat) (nowTs : Int),
      (PostPaint cfg verify hav ll mask st r req now nowTs).2.cooldownLimiter
        = st.cooldownLimiter) ∧
    (PostPaint defaultConfig (fun _ _ => true) (fun _ _ _ _ => 0) (fun _ _ => (0, 0))
        none (NewHandlerState defaultConfig) ⟨"", "", "10.0.0.1:1234"⟩
        ⟨42, -71, 1000, 1000, 0, 5, ""⟩ 100 100).1 = .ok 1 100 ∧
    (PostPaint defaultConfig (fun _ _ => true)
        (fun _ _ _ _ => 10000000) (fun _ _ => (0, 0))
        (some ⟨[], ⟨0, 0, 0, 0⟩, 10⟩)
        ⟨Store.empty, NewLimiter,
          ⟨fun k => if k = "10.0.0.1:1234" then some ⟨42, -71, 0⟩ else none,
            150 * 1000 / 3600⟩, []⟩
        ⟨"", "", "10.0.0.1:1234"⟩ ⟨42, -71, 0, 0, 0, 5, ""⟩ 100 100).1
      = .forbiddenSpeed := by
  refine ⟨fun _ _ _ _ _ _ _ _ _ _ _ _ => rfl,
    fun cfg verify hav ll mask st r req now nowTs =>
      PostPaint_cooldown_untouched cfg verify hav ll mask st r req now nowTs, ?_, ?_⟩
  · have hacc := PostPaint_accept defaultConfig (fun _ _ => true) (fun _ _ _ _ => 0)
      (fun _ _ => (0, 0)) none (NewHandlerState defaultConfig) ⟨"", "", "10.0.0.1:1234"⟩
      ⟨42, -71, 1000, 1000, 0, 5, ""⟩ 100 100
      (by simp [defaultConfig]) (by simp [defaultConfig]) (by norm_num)
      (by rw [CheckSpeed_none _ _ _ _ _ _ rfl]) rfl (by norm_num)
    rw [hacc]
    rfl
  · have hrej := PostPaint_reject_speed defaultConfig (fun _ _ => true)
      (fun _ _ _ _ => 10000000) (fun _ _ => (0, 0)) (some ⟨[], ⟨0, 0, 0, 0⟩, 10⟩)
      ⟨Store.empty, NewLimiter,
        ⟨fun k => if k = "10.0.0.1:1234" then some ⟨42, -71, 0⟩ else none,
          150 * 1000 / 3600⟩, []⟩
      ⟨"", "", "10.0.0.1:1234"⟩ ⟨42, -71, 0, 0, 0, 5, ""⟩ 100 100
      (by simp [defaultConfig]) (by simp [defaultConfig]) (by norm_num) ?_
    · rw [hrej]
    · rw [CheckSpeed_fresh _ _ _ _ _ _ ⟨42, -71, 0⟩ rfl (by norm_num)]
      simp only [decide_eq_false_iff_not]
      norm_num



/-- C6 (code bug): cooldown is not enforced.  The handler never touches
the cooldown limiter, and two otherwise-valid paints from the same
client one second apart (well inside the default 5000 ms window) are
both accepted with 200 — the second returns `seq = 2` instead of the
claimed 429. -/
theorem C6_cooldown_not_enforced :
    (∀ (cfg : Config) (verify : String → String → Bool)
      (hav : Rat → Rat → Rat → Rat → Rat) (ll : Rat → Rat → Int × Int)
      (mask : Option Mask) (st : HandlerState) (r : HttpRequest) (req : PaintRequest)
      (now : Rat) (nowTs : Int),
      (PostPaint cfg verify hav ll mask st r req now nowTs).2.cooldownLimiter
        = st.cooldownLimiter) ∧
    statusOf (PostPaint defaultConfig (fun _ _ => true) (fun _ _ _ _ => 0) (fun _ _ => (0, 0))
        none (NewHandlerState defaultConfig) ⟨"", "", "10.0.0.1:1234"⟩
        ⟨42, -71, 0, 0, 0, 5, ""⟩ 100 100).1 = 200 ∧
    statusOf (PostPaint defaultConfig (fun _ _ => true) (fun _ _ _ _ => 0) (fun _ _ => (0, 0))
        none
        (PostPaint defaultConfig (fun _ _ => true) (fun _ _ _ _ => 0) (fun _ _ => (0, 0))
          none (NewHandlerState defaultConfig) ⟨"", "", "10.0.0.1:1234"⟩
          ⟨42, -71, 0, 0, 0, 5, ""⟩ 100 100).2
        ⟨"", "", "10.0.0.1:1234"⟩ ⟨42, -71, 0, 0, 0, 5, ""⟩ 101 101).1 = 200 ∧
    (PostPaint defaultConfig (fun _ _ => true) (fun _ _ _ _ => 0) (fun _ _ => (0, 0))
        none
        (PostPaint defaultConfig (fun _ _ => true) (fun _ _ _ _ => 0) (fun _ _ => (0, 0))
          none (NewHandlerState defaultConfig) ⟨"", "", "10.0.0.1:1234"⟩
          ⟨42, -71, 0, 0, 0, 5, ""⟩ 100 100).2
        ⟨"", "", "10.0.0.1:1234"⟩ ⟨42, -71, 0, 0, 0, 5, ""⟩ 101 101).1 = .ok 2 101 := by
  have hacc1 := PostPaint_accept defaultConfig (fun _ _ => true) (fun _ _ _ _ => 0)
    (fun _ _ => (0, 0)) none (NewHandlerState defaultConfig) ⟨"", "", "10.0.0.1:1234"⟩
    ⟨42, -71, 0, 0, 0, 5, ""⟩ 100 100
    (by simp [defaultConfig]) (by simp [defaultConfig]) (by norm_num)
    (by rw [CheckSpeed_none _ _ _ _ _ _ rfl]) rfl (by norm_num)
  have key : ∀ st : HandlerState, st.store.seq ((0 : Int), (0 : Int)) = 1 →
      st.speedLimiter.lastPositions "10.0.0.1:1234" = some ⟨42, -71, 100⟩ →
      st.speedLimiter.maxSpeedMs = 150 * 1000 / 3600 →
      (PostPaint defaultConfig (fun _ _ => true) (fun _ _ _ _ => 0) (fun _ _ => (0, 0))
        none st ⟨"", "", "10.0.0.1:1234"⟩ ⟨42, -71, 0, 0, 0, 5, ""⟩ 101 101).1
        = .ok 2 101 := by
    intro st hseq hpos hmax
    have hpos' : st.speedLimiter.lastPositions
        (getIP ⟨"", "", "10.0.0.1:1234"⟩) = some ⟨42, -71, 100⟩ := hpos
    have h4 : (SpeedLimiter.CheckSpeed (fun _ _ _ _ => 0) st.speedLimiter
        (getIP ⟨"", "", "10.0.0.1:1234"⟩)
        (42 : Rat) (-71 : Rat) 101).1 = true := by
      rw [CheckSpeed_fresh _ _ _ _ _ _ ⟨42, -71, 100⟩ hpos' (by norm_num)]
      simp only [decide_eq_true_eq, hmax]
      norm_num
    rw [PostPaint_accept defaultConfig (fun _ _ => true) (fun _ _ _ _ => 0)
      (fun _ _ => (0, 0)) none st ⟨"", "", "10.0.0.1:1234"⟩
      ⟨42, -71, 0, 0, 0, 5, ""⟩ 101 101
      (by simp [defaultConfig]) (by simp [defaultConfig]) (by norm_num) h4 rfl (by norm_num)]
    dsimp only
    rw [hseq]
  refine ⟨fun cfg verify hav ll mask st r req now nowTs =>
    PostPaint_cooldown_untouched cfg verify hav ll mask st r req now nowTs, ?_, ?_, ?_⟩
  · rw [hacc1]
    rfl
  · rw [key _ ?_ ?_ ?_]
    · rfl
    · rw [hacc1]
      simp [PaintTile, NewHandlerState, Store.empty]
    · rw [hacc1]
      rw [CheckSpeed_none _ _ _ _ _ _ rfl]
      rfl
    · rw [hacc1]
      rfl
  · exact key _ (by rw [hacc1]; simp [PaintTile, NewHandlerState, Store.empty])
      (by rw [hacc1]; rw [CheckSpeed_none _ _ _ _ _ _ rfl]; rfl)
      (by rw [hacc1]; rfl)



/-- C7 counterexample: a paint rejected with 400 (color 16) has already
updated the client's stored position memory: before the call the
position table holds nothing for the client, afterwards it holds the
submitted (lat, lon, time), contradicting the claim that only accepted
paints update it. -/
theorem C7_rejected_paint_updates_position_cex :
    statusOf (PostPaint defaultConfig (fun _ _ => true) (fun _ _ _ _ => 0) (fun _ _ => (0, 0))
        none (NewHandlerState defaultConfig) ⟨"", "", "10.0.0.1:1234"⟩
        ⟨42, -71, 0, 0, 0, 16, ""⟩ 100 100).1 = 400 ∧
    (NewHandlerState defaultConfig).speedLimiter.lastPositions "10.0.0.1:1234" = none ∧
    (PostPaint defaultConfig (fun _ _ => true) (fun _ _ _ _ => 0) (fun _ _ => (0, 0))
        none (NewHandlerState defaultConfig) ⟨"", "", "10.0.0.1:1234"⟩
        ⟨42, -71, 0, 0, 0, 16, ""⟩ 100 100).2.speedLimiter.lastPositions "10.0.0.1:1234"
      = some ⟨42, -71, 100⟩ := by
  have hbc := PostPaint_badColor defaultConfig (fun _ _ => true) (fun _ _ _ _ => 0)
    (fun _ _ => (0, 0)) none (NewHandlerState defaultConfig) ⟨"", "", "10.0.0.1:1234"⟩
    ⟨42, -71, 0, 0, 0, 16, ""⟩ 100 100
    (by simp [defaultConfig]) (by simp [defaultConfig]) (by norm_num)
    (by rw [CheckSpeed_none _ _ _ _ _ _ rfl]) rfl (by norm_num)
  rw [hbc]
  refine ⟨rfl, rfl, ?_⟩
  rw [CheckSpeed_none _ _ _ _ _ _ rfl]
  rfl

/-- C7 amended: `CheckSpeed` stores the submitted position on every
call that evaluates the clamp — on a first sighting and whenever time
has advanced, whether the verdict is accept or reject; only the
no-time-elapsed path leaves the memory unchanged.  Position memory is
therefore updated by the speed check itself, not by paint acceptance. -/
theorem C7_speed_memory_amended (hav : Rat → Rat → Rat → Rat → Rat) (s : SpeedLimiter)
    (ip : String) (lat lon now : Rat) :
    (s.lastPositions ip = none →
      SpeedLimiter.CheckSpeed hav s ip lat lon now
        = (true, { s with lastPositions := fun k =>
            if k = ip then some ⟨lat, lon, now⟩ else s.lastPositions k })) ∧
    (∀ p : Position, s.lastPositions ip = some p → now - p.time ≤ 0 →
      SpeedLimiter.CheckSpeed hav s ip lat lon now = (true, s)) ∧
    (∀ p : Position, s.lastPositions ip = some p → 0 < now - p.time →
      SpeedLimiter.CheckSpeed hav s ip lat lon now
        = (decide (hav p.lat p.lon lat lon / (now - p.time) ≤ s.maxSpeedMs),
          { s with lastPositions := fun k =>
            if k = ip then some ⟨lat, lon, now⟩ else s.lastPositions k })) :=
  ⟨fun h => CheckSpeed_none hav s ip lat lon now h,
   fun p h ht => CheckSpeed_stale hav s ip lat lon now p h ht,
   fun p h ht => CheckSpeed_fresh hav s ip lat lon now p h ht⟩

/-- Witness for `C7_speed_memory_amended`: a rejected check (speed 100
m/s against a 1 m/s limit) that still overwrites the stored position. -/
theorem C7_speed_memory_amended_witness :
    (SpeedLimiter.CheckSpeed (fun _ _ _ _ => 100)
        (⟨fun k => if k = "1.2.3.4" then some ⟨0, 0, 0⟩ else none, 1⟩ : SpeedLimiter)
        "1.2.3.4" 1 1 1).1 = false ∧
    (SpeedLimiter.CheckSpeed (fun _ _ _ _ => 100)
        (⟨fun k => if k = "1.2.3.4" then some ⟨0, 0, 0⟩ else none, 1⟩ : SpeedLimiter)
        "1.2.3.4" 1 1 1).2.lastPositions "1.2.3.4" = some ⟨1, 1, 1⟩ := by
  have h := (C7_speed_memory_amended (fun _ _ _ _ => 100)
    (⟨fun k => if k = "1.2.3.4" then some ⟨0, 0, 0⟩ else none, 1⟩ : SpeedLimiter)
    "1.2.3.4" 1 1 1).2.2 ⟨0, 0, 0⟩ rfl (by norm_num)
  rw [h]
  constructor
  · simp only [decide_eq_false_iff_not]
    norm_num
  · rfl

/-- C10: the client identity is the `CF-Connecting-IP` header when
non-empty, else `X-Forwarded-For` when non-empty, else the transport
remote address; the headers are honored unconditionally, so two
requests with the same header values share one identity regardless of
their remote addresses; and `PostPaint` keys its speed-clamp table by
exactly this identity (no other key of the position table changes). -/
theorem C10_client_identity (r r2 : HttpRequest) (cfg : Config) (verify : String → String → Bool)
    (hav : Rat → Rat → Rat → Rat → Rat) (ll : Rat → Rat → Int × Int)
    (mask : Option Mask) (st : HandlerState) (req : PaintRequest)
    (now : Rat) (nowTs : Int) (k : String) (hk : k ≠ getIP r) :
    (r.cfConnectingIP ≠ "" → getIP r = r.cfConnectingIP) ∧
    (r.cfConnectingIP = "" → r.xForwardedFor ≠ "" → getIP r = r.xForwardedFor) ∧
    (r.cfConnectingIP = "" → r.xForwardedFor = "" → getIP r = r.remoteAddr) ∧
    (r.cfConnectingIP = r2.cfConnectingIP → r.xForwardedFor = r2.xForwardedFor →
      (r.cfConnectingIP ≠ "" ∨ r.xForwardedFor ≠ "") → getIP r = getIP r2) ∧
    (PostPaint cfg verify hav ll mask st r req now nowTs).2.speedLimiter.lastPositions k
      = st.speedLimiter.lastPositions k := by
  refine ⟨?_, ?_, ?_, ?_, ?_⟩
  · intro h
    simp [getIP, h]
  · intro h h2
    simp [getIP, h, h2]
  · intro h h2
    simp [getIP, h, h2]
  · intro h1 h2 h3
    unfold getIP
    by_cases hc : r.cfConnectingIP ≠ ""
    · have hc2 : r2.cfConnectingIP ≠ "" := by rw [← h1]; exact hc
      rw [if_pos hc, if_pos hc2, h1]
    · have hc2 : ¬ (r2.cfConnectingIP ≠ "") := by rw [← h1]; exact hc
      rw [if_neg hc, if_neg hc2]
      rcases h3 with h3 | h3
      · exact absurd h3 hc
      · have hx2 : r2.xForwardedFor ≠ "" := by rw [← h2]; exact h3
        rw [if_pos h3, if_pos hx2, h2]
  · unfold PostPaint
    split_ifs <;> try rfl
    all_goals
      by_cases hs : (SpeedLimiter.CheckSpeed hav st.speedLimiter (getIP r) req.lat req.lon now).1 <;>
        simp [hs, CheckSpeed_frame hav st.speedLimiter (getIP r) req.lat req.lon now k hk]


/-- Witness for `C10_client_identity`: two requests with the same
`CF-Connecting-IP` but different remote addresses share the identity
"1.2.3.4", and a paint leaves the position table unchanged at the
unrelated key "other". -/
theorem C10_client_identity_witness :
    getIP ⟨"1.2.3.4", "", "9.9.9.9:1"⟩ = "1.2.3.4" ∧
    getIP ⟨"1.2.3.4", "", "9.9.9.9:1"⟩ = getIP ⟨"1.2.3.4", "", "8.8.8.8:2"⟩ ∧
    (PostPaint defaultConfig (fun _ _ => true) (fun _ _ _ _ => 0) (fun _ _ => (0, 0))
        none (NewHandlerState defaultConfig) ⟨"1.2.3.4", "", "9.9.9.9:1"⟩
        ⟨42, -71, 0, 0, 0, 5, ""⟩ 100 100).2.speedLimiter.lastPositions "other"
      = (NewHandlerState defaultConfig).speedLimiter.lastPositions "other" := by
  have h := C10_client_identity ⟨"1.2.3.4", "", "9.9.9.9:1"⟩ ⟨"1.2.3.4", "", "8.8.8.8:2"⟩
    defaultConfig (fun _ _ => true) (fun _ _ _ _ => 0) (fun _ _ => (0, 0)) none
    (NewHandlerState defaultConfig) ⟨42, -71, 0, 0, 0, 5, ""⟩ 100 100 "other" (by decide)
  exact ⟨h.1 (by decide), h.2.2.2.1 rfl rfl (Or.inl (by decide)), h.2.2.2.2⟩

end Splat
